import Mathlib

/-!
Shallow embedding of the in-memory rate limiter (`rateLimitCheck`,
`getRateLimitRemaining`, the cleanup sweep body of `startCleanup`, and the
`RATE_LIMIT_CONFIG` policy table).

Modelling conventions:
* `Date.now()` timestamps and counters are JavaScript numbers that stay
  integral and non-negative here, so both are embedded as `Nat`.
* The `Map<string, RateLimitEntry>` store is embedded as an association list
  with JavaScript `Map` semantics: `set` overwrites in place, `get` returns
  the first (unique) binding, iteration-with-delete is a filter.
* `RATE_LIMIT_CONFIG[category]` for a category that is neither declared nor a
  property name inherited from `Object.prototype` evaluates to `undefined`
  without failing; the TypeError is raised only later, at the first property
  access (`config.windowMs` or `config.maxRequests`).  The embedding
  therefore returns `Option`: a `none` result means the call threw, and the
  store component carries every mutation performed before the throw.
* Category strings that name `Object.prototype` members (listed in
  `OBJECT_PROTOTYPE_PROPS`, e.g. "toString") are OUTSIDE the error model:
  there the real lookup yields the inherited member, whose `windowMs` /
  `maxRequests` are `undefined`, so the call neither throws nor denies — it
  admits and writes an entry with `resetTime = now + undefined = NaN`, a
  value the `Nat`-valued store of this embedding cannot represent.  Every
  theorem below about undeclared categories carries an explicit
  `∉ OBJECT_PROTOTYPE_PROPS` hypothesis confining it to the faithful region;
  theorems about declared categories (`= some p`) are unaffected.
-/

structure RateLimitPolicy where
  maxRequests : Nat
  windowMs : Nat
deriving DecidableEq, Repr

/-- The `RATE_LIMIT_CONFIG` table: an object literal with exactly the three
declared own properties.  Indexing by any other string is modelled as `none`
(JavaScript `undefined`); this is faithful exactly for strings that are also
not `Object.prototype` property names — for a string in
`OBJECT_PROTOTYPE_PROPS` the real lookup falls back to the prototype chain
and yields the inherited member instead of `undefined`, so theorems relying
on the `none` branch are stated only for categories outside that list. -/
def RATE_LIMIT_CONFIG (category : String) : Option RateLimitPolicy :=
  if category = "default" then some ⟨100, 15 * 60 * 1000⟩
  else if category = "auth" then some ⟨20, 15 * 60 * 1000⟩
  else if category = "booking" then some ⟨50, 15 * 60 * 1000⟩
  else none

/-- Own property names of `Object.prototype`.  An undeclared category string
from this list does not make `RATE_LIMIT_CONFIG[category]` undefined: the
lookup returns the inherited member, so `config.windowMs` is `undefined`
rather than a TypeError and the check admits while writing
`resetTime = NaN`.  The `none`-branch of the embedding is faithful only for
category strings outside this list. -/
def OBJECT_PROTOTYPE_PROPS : List String :=
  ["constructor", "hasOwnProperty", "isPrototypeOf", "propertyIsEnumerable",
   "toLocaleString", "toString", "valueOf", "__proto__", "__defineGetter__",
   "__defineSetter__", "__lookupGetter__", "__lookupSetter__"]

structure RateLimitEntry where
  count : Nat
  resetTime : Nat
deriving DecidableEq, Repr

/-- The `rateLimitStore` map, as an association list with unique keys. -/
abbrev Store := List (String × RateLimitEntry)

namespace Store

/-- `Map.get`: first binding for the key, if any. -/
def get : Store → String → Option RateLimitEntry
  | [], _ => none
  | (k', e) :: rest, k => if k' = k then some e else get rest k

/-- `Map.set`: overwrite the existing binding in place, else append. -/
def set : Store → String → RateLimitEntry → Store
  | [], k, e => [(k, e)]
  | (k', e') :: rest, k, e =>
      if k' = k then (k, e) :: rest else (k', e') :: set rest k e

end Store

/-- The composite key `` `${category}:${identifier}` ``. -/
def rateLimitKey (category identifier : String) : String :=
  category ++ ":" ++ identifier

/-- Outcome of one `rateLimitCheck` call: `result = none` models a thrown
TypeError, `store` is the store after the call (including mutations performed
before a throw). -/
structure CheckResult where
  result : Option Bool
  store : Store
deriving DecidableEq, Repr

/-- Embedding of `rateLimitCheck`, following the JavaScript evaluation order:
the policy lookup itself never fails; on the create/reset path
`config.windowMs` is read before `Map.set` runs, so a bad category throws with
the store untouched; on the in-window path `entry.count += 1` runs before
`config.maxRequests` is read, so a bad category throws after the increment.
The `none` (throwing) branches are faithful for undeclared categories outside
`OBJECT_PROTOTYPE_PROPS`; prototype-inherited names are outside this model
(they admit and write a NaN resetTime instead), so theorems about the error
behaviour carry a `∉ OBJECT_PROTOTYPE_PROPS` hypothesis. -/
def rateLimitCheck (store : Store) (now : Nat) (identifier category : String) :
    CheckResult :=
  let config := RATE_LIMIT_CONFIG category
  let key := rateLimitKey category identifier
  match store.get key with
  | none =>
    match config with
    | none => ⟨none, store⟩
    | some c => ⟨some true, store.set key ⟨1, now + c.windowMs⟩⟩
  | some entry =>
    if now > entry.resetTime then
      match config with
      | none => ⟨none, store⟩
      | some c => ⟨some true, store.set key ⟨1, now + c.windowMs⟩⟩
    else
      let store1 := store.set key ⟨entry.count + 1, entry.resetTime⟩
      match config with
      | none => ⟨none, store1⟩
      | some c =>
        if entry.count + 1 > c.maxRequests then ⟨some false, store1⟩
        else ⟨some true, store1⟩

/-- Embedding of `getRateLimitRemaining`, with the store passed through
explicitly (the function performs only `Map.get`); `none` again models the
TypeError on an undeclared category.  `Math.max(0, maxRequests - count)` is
computed over `Int` as in JavaScript. -/
def getRateLimitRemaining (store : Store) (now : Nat)
    (identifier category : String) : Option Int × Store :=
  let config := RATE_LIMIT_CONFIG category
  let key := rateLimitKey category identifier
  match store.get key with
  | none =>
    match config with
    | none => (none, store)
    | some c => (some (c.maxRequests : Int), store)
  | some entry =>
    if now > entry.resetTime then
      match config with
      | none => (none, store)
      | some c => (some (c.maxRequests : Int), store)
    else
      match config with
      | none => (none, store)
      | some c =>
        (some (max 0 ((c.maxRequests : Int) - (entry.count : Int))), store)

/-- One pass of the cleanup body installed by `startCleanup`: iterate over the
store and delete every entry whose `resetTime` has passed. -/
def sweep (now : Nat) : Store → Store
  | [] => []
  | (k, e) :: rest =>
      if now > e.resetTime then sweep now rest else (k, e) :: sweep now rest

/-- Run `rateLimitCheck` once per timestamp in the list, threading the store;
collects the list of results and the final store. -/
def checkSeq (store : Store) (identifier category : String) :
    List Nat → List (Option Bool) × Store
  | [] => ([], store)
  | t :: ts =>
    let r := rateLimitCheck store t identifier category
    let rest := checkSeq r.store identifier category ts
    (r.result :: rest.1, rest.2)

/-- Stores reachable from the initial empty map by any sequence of the three
operations. -/
inductive Reachable : Store → Prop
  | init : Reachable []
  | check (s : Store) (now : Nat) (identifier category : String) :
      Reachable s → Reachable (rateLimitCheck s now identifier category).store
  | query (s : Store) (now : Nat) (identifier category : String) :
      Reachable s → Reachable (getRateLimitRemaining s now identifier category).2
  | clean (s : Store) (now : Nat) : Reachable s → Reachable (sweep now s)

namespace Store

theorem get_set_self (s : Store) (k : String) (e : RateLimitEntry) :
    (s.set k e).get k = some e := by
  induction s with
  | nil => simp [Store.set, Store.get]
  | cons hd tl ih =>
    obtain ⟨k', e'⟩ := hd
    by_cases h : k' = k <;> simp [Store.set, Store.get, h, ih]

theorem get_set_ne (s : Store) (k k' : String) (e : RateLimitEntry)
    (h : k' ≠ k) : (s.set k e).get k' = s.get k' := by
  induction s with
  | nil => simp [Store.set, Store.get, h, Ne.symm h]
  | cons hd tl ih =>
    obtain ⟨k₀, e₀⟩ := hd
    by_cases h₀ : k₀ = k
    · subst h₀
      simp [Store.set, Store.get, Ne.symm h, h]
    · by_cases h₁ : k₀ = k'
      · simp [Store.set, Store.get, h₀, h₁, h]
      · simp [Store.set, Store.get, h₀, h₁, ih]

end Store

/-- Well-formedness of the embedded store: a JavaScript `Map` never holds two
bindings for the same key. -/
def Store.WF (s : Store) : Prop := (s.map Prod.fst).Nodup

theorem Store.get_eq_none_of_not_mem (s : Store) (k : String)
    (h : k ∉ s.map Prod.fst) : s.get k = none := by
  induction s with
  | nil => simp [Store.get]
  | cons hd tl ih =>
    obtain ⟨k₀, e₀⟩ := hd
    simp only [List.map_cons, List.mem_cons, not_or] at h
    simp [Store.get, Ne.symm h.1, ih h.2]

theorem sweep_get (now : Nat) (s : Store) (hs : s.WF) (k : String) :
    (sweep now s).get k =
      match s.get k with
      | none => none
      | some e => if now > e.resetTime then none else some e := by
  induction s with
  | nil => simp [sweep, Store.get]
  | cons hd tl ih =>
    obtain ⟨k₀, e₀⟩ := hd
    simp only [Store.WF, List.map_cons, List.nodup_cons] at hs
    by_cases hk : k₀ = k
    · subst hk
      by_cases he : now > e₀.resetTime
      · rw [sweep, if_pos he, ih hs.2,
          Store.get_eq_none_of_not_mem tl k₀ hs.1]
        simp [Store.get, he]
      · simp [sweep, if_neg he, Store.get]
    · by_cases he : now > e₀.resetTime
      · simp [sweep, if_pos he, Store.get, hk, ih hs.2]
      · simp [sweep, if_neg he, Store.get, hk, ih hs.2]

theorem sweep_idem (now : Nat) (s : Store) :
    sweep now (sweep now s) = sweep now s := by
  induction s with
  | nil => rfl
  | cons hd tl ih =>
    obtain ⟨k₀, e₀⟩ := hd
    by_cases he : now > e₀.resetTime
    · simp [sweep, if_pos he, ih]
    · simp [sweep, if_neg he, ih]

theorem RATE_LIMIT_CONFIG_maxRequests_pos (category : String)
    (p : RateLimitPolicy) (hp : RATE_LIMIT_CONFIG category = some p) :
    1 ≤ p.maxRequests := by
  unfold RATE_LIMIT_CONFIG at hp
  split_ifs at hp <;> cases hp <;> decide

theorem RATE_LIMIT_CONFIG_isSome_cases (category : String)
    (hp : (RATE_LIMIT_CONFIG category).isSome) :
    category = "default" ∨ category = "auth" ∨ category = "booking" := by
  unfold RATE_LIMIT_CONFIG at hp
  split_ifs at hp <;> simp_all

theorem rateLimitCheck_fresh (store : Store) (now : Nat)
    (identifier category : String) (p : RateLimitPolicy)
    (hp : RATE_LIMIT_CONFIG category = some p)
    (hget : store.get (rateLimitKey category identifier) = none) :
    rateLimitCheck store now identifier category =
      ⟨some true,
        store.set (rateLimitKey category identifier) ⟨1, now + p.windowMs⟩⟩ := by
  simp [rateLimitCheck, hget, hp]

theorem rateLimitCheck_expired (store : Store) (now : Nat)
    (identifier category : String) (p : RateLimitPolicy) (e : RateLimitEntry)
    (hp : RATE_LIMIT_CONFIG category = some p)
    (hget : store.get (rateLimitKey category identifier) = some e)
    (he : now > e.resetTime) :
    rateLimitCheck store now identifier category =
      ⟨some true,
        store.set (rateLimitKey category identifier) ⟨1, now + p.windowMs⟩⟩ := by
  simp [rateLimitCheck, hget, hp, he]

theorem rateLimitCheck_inWindow (store : Store) (now : Nat)
    (identifier category : String) (p : RateLimitPolicy) (e : RateLimitEntry)
    (hp : RATE_LIMIT_CONFIG category = some p)
    (hget : store.get (rateLimitKey category identifier) = some e)
    (he : ¬ now > e.resetTime) :
    rateLimitCheck store now identifier category =
      ⟨some (decide (e.count + 1 ≤ p.maxRequests)),
        store.set (rateLimitKey category identifier)
          ⟨e.count + 1, e.resetTime⟩⟩ := by
  simp only [rateLimitCheck, hget, hp, he, if_neg he]
  by_cases h : e.count + 1 > p.maxRequests
  · simp [h, Nat.not_le_of_lt h]
  · simp [h, Nat.le_of_not_lt h]

theorem rateLimitCheck_noPolicy_fresh (store : Store) (now : Nat)
    (identifier category : String)
    (hp : RATE_LIMIT_CONFIG category = none)
    (hget : store.get (rateLimitKey category identifier) = none) :
    rateLimitCheck store now identifier category = ⟨none, store⟩ := by
  simp [rateLimitCheck, hget, hp]

theorem rateLimitCheck_noPolicy_expired (store : Store) (now : Nat)
    (identifier category : String) (e : RateLimitEntry)
    (hp : RATE_LIMIT_CONFIG category = none)
    (hget : store.get (rateLimitKey category identifier) = some e)
    (he : now > e.resetTime) :
    rateLimitCheck store now identifier category = ⟨none, store⟩ := by
  simp [rateLimitCheck, hget, hp, he]

theorem rateLimitCheck_noPolicy_inWindow (store : Store) (now : Nat)
    (identifier category : String) (e : RateLimitEntry)
    (hp : RATE_LIMIT_CONFIG category = none)
    (hget : store.get (rateLimitKey category identifier) = some e)
    (he : ¬ now > e.resetTime) :
    rateLimitCheck store now identifier category =
      ⟨none, store.set (rateLimitKey category identifier)
        ⟨e.count + 1, e.resetTime⟩⟩ := by
  simp [rateLimitCheck, hget, hp, he]

theorem rateLimitCheck_frame (store : Store) (now : Nat)
    (identifier category : String) (k : String)
    (hk : k ≠ rateLimitKey category identifier) :
    (rateLimitCheck store now identifier category).store.get k =
      store.get k := by
  cases hp : RATE_LIMIT_CONFIG category with
  | none =>
    cases hget : store.get (rateLimitKey category identifier) with
    | none =>
      rw [rateLimitCheck_noPolicy_fresh store now identifier category hp hget]
    | some e =>
      by_cases he : now > e.resetTime
      · rw [rateLimitCheck_noPolicy_expired store now identifier category e
          hp hget he]
      · rw [rateLimitCheck_noPolicy_inWindow store now identifier category e
          hp hget he]
        exact Store.get_set_ne _ _ _ _ hk
  | some p =>
    cases hget : store.get (rateLimitKey category identifier) with
    | none =>
      rw [rateLimitCheck_fresh store now identifier category p hp hget]
      exact Store.get_set_ne _ _ _ _ hk
    | some e =>
      by_cases he : now > e.resetTime
      · rw [rateLimitCheck_expired store now identifier category p e
          hp hget he]
        exact Store.get_set_ne _ _ _ _ hk
      · rw [rateLimitCheck_inWindow store now identifier category p e
          hp hget he]
        exact Store.get_set_ne _ _ _ _ hk

theorem rateLimitKey_inj (c₁ c₂ id₁ id₂ : String)
    (h₁ : (RATE_LIMIT_CONFIG c₁).isSome) (h₂ : (RATE_LIMIT_CONFIG c₂).isSome)
    (hk : rateLimitKey c₁ id₁ = rateLimitKey c₂ id₂) :
    c₁ = c₂ ∧ id₁ = id₂ := by
  have hd := congrArg String.data hk
  unfold rateLimitKey at hd
  simp only [String.data_append] at hd
  rcases RATE_LIMIT_CONFIG_isSome_cases c₁ h₁ with rfl | rfl | rfl <;>
    rcases RATE_LIMIT_CONFIG_isSome_cases c₂ h₂ with rfl | rfl | rfl <;>
      simp_all <;> exact String.ext hd

theorem checkSeq_inWindow_profile (identifier category : String)
    (p : RateLimitPolicy) (hp : RATE_LIMIT_CONFIG category = some p)
    (R : Nat) :
    ∀ (ts : List Nat) (store : Store) (k : Nat),
      store.get (rateLimitKey category identifier) = some ⟨k, R⟩ →
      (∀ t ∈ ts, t ≤ R) →
      (checkSeq store identifier category ts).1 =
        (List.range ts.length).map
          (fun i => some (decide (k + 1 + i ≤ p.maxRequests))) ∧
      (checkSeq store identifier category ts).2.get
          (rateLimitKey category identifier) = some ⟨k + ts.length, R⟩ := by
  intro ts
  induction ts with
  | nil =>
    intro store k hget _
    simpa [checkSeq] using hget
  | cons t ts ih =>
    intro store k hget hts
    have hnow : ¬ t > R := by
      have := hts t (List.mem_cons_self _ _)
      omega
    have hstep := rateLimitCheck_inWindow store t identifier category p
      ⟨k, R⟩ hp hget hnow
    have hget' : (store.set (rateLimitKey category identifier)
        ⟨k + 1, R⟩).get (rateLimitKey category identifier) =
          some ⟨k + 1, R⟩ :=
      Store.get_set_self _ _ _
    have hts' : ∀ t' ∈ ts, t' ≤ R :=
      fun t' ht' => hts t' (List.mem_cons_of_mem _ ht')
    obtain ⟨ih1, ih2⟩ :=
      ih (store.set (rateLimitKey category identifier) ⟨k + 1, R⟩)
        (k + 1) hget' hts'
    constructor
    · simp only [checkSeq, hstep, ih1, List.length_cons]
      rw [List.range_succ_eq_map, List.map_cons, List.map_map]
      refine congrArg₂ List.cons ?_ ?_
      · simp
      · refine List.map_congr_left ?_
        intro i _
        simp only [Function.comp_apply, Option.some.injEq, decide_eq_decide]
        omega
    · simp only [checkSeq, hstep, List.length_cons]
      rw [ih2]
      simp only [Option.some.injEq, RateLimitEntry.mk.injEq]
      exact ⟨by omega, trivial⟩

theorem checkSeq_fresh_profile (store : Store) (identifier category : String)
    (p : RateLimitPolicy) (t1 : Nat) (ts : List Nat)
    (hp : RATE_LIMIT_CONFIG category = some p)
    (hfresh : store.get (rateLimitKey category identifier) = none)
    (hwin : ∀ t ∈ ts, t < t1 + p.windowMs) :
    (checkSeq store identifier category (t1 :: ts)).1 =
      (List.range (ts.length + 1)).map
        (fun i => some (decide (i < p.maxRequests))) := by
  have hpos := RATE_LIMIT_CONFIG_maxRequests_pos category p hp
  have hstep := rateLimitCheck_fresh store t1 identifier category p hp hfresh
  have hget' : (store.set (rateLimitKey category identifier)
      ⟨1, t1 + p.windowMs⟩).get (rateLimitKey category identifier) =
        some ⟨1, t1 + p.windowMs⟩ := Store.get_set_self _ _ _
  have hts : ∀ t ∈ ts, t ≤ t1 + p.windowMs := fun t ht => le_of_lt (hwin t ht)
  obtain ⟨h1, _⟩ := checkSeq_inWindow_profile identifier category p hp
    (t1 + p.windowMs) ts _ 1 hget' hts
  simp only [checkSeq, hstep, h1]
  rw [List.range_succ_eq_map, List.map_cons, List.map_map]
  refine congrArg₂ List.cons ?_ ?_
  · have h0 : 0 < p.maxRequests := hpos
    simp [h0]
  · refine List.map_congr_left ?_
    intro i _
    simp only [Function.comp_apply, Option.some.injEq, decide_eq_decide]
    omega

theorem count_true_range_map (n N : Nat) :
    (((List.range n).map (fun i => some (decide (i < N)))).count
      (some true)) = min n N := by
  induction n with
  | zero => simp
  | succ n ih =>
    rw [List.range_succ, List.map_append, List.count_append, ih]
    by_cases h : n < N <;> simp [h, List.count_cons] <;> omega

theorem getRateLimitRemaining_snd (store : Store) (now : Nat)
    (identifier category : String) :
    (getRateLimitRemaining store now identifier category).2 = store := by
  cases hp : RATE_LIMIT_CONFIG category with
  | none =>
    cases hget : store.get (rateLimitKey category identifier) with
    | none => simp [getRateLimitRemaining, hget, hp]
    | some e =>
      by_cases he : now > e.resetTime <;>
        simp [getRateLimitRemaining, hget, hp, he]
  | some p =>
    cases hget : store.get (rateLimitKey category identifier) with
    | none => simp [getRateLimitRemaining, hget, hp]
    | some e =>
      by_cases he : now > e.resetTime <;>
        simp [getRateLimitRemaining, hget, hp, he]

theorem Store.get_mem (s : Store) (k : String) (e : RateLimitEntry)
    (h : s.get k = some e) : (k, e) ∈ s := by
  induction s with
  | nil => simp [Store.get] at h
  | cons hd tl ih =>
    obtain ⟨k₀, e₀⟩ := hd
    by_cases hk : k₀ = k
    · subst hk
      simp only [Store.get, if_pos] at h
      cases h
      exact List.mem_cons_self _ _
    · simp only [Store.get, if_neg hk] at h
      exact List.mem_cons_of_mem _ (ih h)

theorem Store.mem_set (s : Store) (k : String) (e : RateLimitEntry)
    (q : String × RateLimitEntry) (h : q ∈ s.set k e) :
    q = (k, e) ∨ q ∈ s := by
  induction s with
  | nil =>
    simp only [Store.set, List.mem_singleton] at h
    exact Or.inl h
  | cons hd tl ih =>
    obtain ⟨k₀, e₀⟩ := hd
    by_cases hk : k₀ = k
    · subst hk
      simp only [Store.set, if_pos, List.mem_cons] at h
      rcases h with h1 | h1
      · exact Or.inl h1
      · exact Or.inr (List.mem_cons_of_mem _ h1)
    · simp only [Store.set, if_neg hk, List.mem_cons] at h
      rcases h with h1 | h1
      · exact Or.inr (h1 ▸ List.mem_cons_self _ _)
      · rcases ih h1 with h2 | h2
        · exact Or.inl h2
        · exact Or.inr (List.mem_cons_of_mem _ h2)

theorem mem_sweep (now : Nat) (s : Store) (q : String × RateLimitEntry)
    (h : q ∈ sweep now s) : q ∈ s := by
  induction s with
  | nil => simp [sweep] at h
  | cons hd tl ih =>
    obtain ⟨k₀, e₀⟩ := hd
    by_cases he : now > e₀.resetTime
    · rw [sweep, if_pos he] at h
      exact List.mem_cons_of_mem _ (ih h)
    · rw [sweep, if_neg he] at h
      rcases List.mem_cons.mp h with h | h
      · simp [h]
      · exact List.mem_cons_of_mem _ (ih h)

theorem Store.mem_keys_set (s : Store) (k x : String) (e : RateLimitEntry) :
    x ∈ (s.set k e).map Prod.fst ↔ x ∈ s.map Prod.fst ∨ x = k := by
  induction s with
  | nil => simp [Store.set]
  | cons hd tl ih =>
    obtain ⟨k₀, e₀⟩ := hd
    by_cases h : k₀ = k
    · subst h
      simp [Store.set]
      tauto
    · simp [Store.set, h, ih]
      tauto

theorem Store.WF_set (s : Store) (k : String) (e : RateLimitEntry)
    (hs : s.WF) : (s.set k e).WF := by
  induction s with
  | nil => simp [Store.set, Store.WF]
  | cons hd tl ih =>
    obtain ⟨k₀, e₀⟩ := hd
    simp only [Store.WF, List.map_cons, List.nodup_cons] at hs
    by_cases h : k₀ = k
    · subst h
      simp only [Store.set, if_pos, Store.WF, List.map_cons, List.nodup_cons]
      exact hs
    · simp only [Store.set, if_neg h, Store.WF, List.map_cons,
        List.nodup_cons]
      refine ⟨?_, ih hs.2⟩
      rw [Store.mem_keys_set]
      push_neg
      exact ⟨hs.1, h⟩

theorem sweep_keys_sublist (now : Nat) (s : Store) :
    ((sweep now s).map Prod.fst).Sublist (s.map Prod.fst) := by
  induction s with
  | nil => simp [sweep]
  | cons hd tl ih =>
    obtain ⟨k₀, e₀⟩ := hd
    by_cases he : now > e₀.resetTime
    · rw [sweep, if_pos he]
      simp only [List.map_cons]
      exact List.Sublist.cons _ ih
    · rw [sweep, if_neg he]
      simp only [List.map_cons]
      exact List.Sublist.cons₂ _ ih

theorem WF_sweep (now : Nat) (s : Store) (hs : s.WF) : (sweep now s).WF :=
  List.Nodup.sublist (sweep_keys_sublist now s) hs

theorem rateLimitCheck_store_shape (store : Store) (now : Nat)
    (identifier category : String) :
    (rateLimitCheck store now identifier category).store = store ∨
    ∃ e, (rateLimitCheck store now identifier category).store =
      store.set (rateLimitKey category identifier) e := by
  cases hp : RATE_LIMIT_CONFIG category with
  | none =>
    cases hget : store.get (rateLimitKey category identifier) with
    | none =>
      rw [rateLimitCheck_noPolicy_fresh store now identifier category hp hget]
      exact Or.inl rfl
    | some e =>
      by_cases he : now > e.resetTime
      · rw [rateLimitCheck_noPolicy_expired store now identifier category e
          hp hget he]
        exact Or.inl rfl
      · rw [rateLimitCheck_noPolicy_inWindow store now identifier category e
          hp hget he]
        exact Or.inr ⟨_, rfl⟩
  | some p =>
    cases hget : store.get (rateLimitKey category identifier) with
    | none =>
      rw [rateLimitCheck_fresh store now identifier category p hp hget]
      exact Or.inr ⟨_, rfl⟩
    | some e =>
      by_cases he : now > e.resetTime
      · rw [rateLimitCheck_expired store now identifier category p e
          hp hget he]
        exact Or.inr ⟨_, rfl⟩
      · rw [rateLimitCheck_inWindow store now identifier category p e
          hp hget he]
        exact Or.inr ⟨_, rfl⟩

theorem reachable_WF (s : Store) (hs : Reachable s) : s.WF := by
  induction hs with
  | init => simp [Store.WF]
  | check s now identifier category _ ih =>
    rcases rateLimitCheck_store_shape s now identifier category with h | ⟨e, h⟩
    · rw [h]; exact ih
    · rw [h]; exact Store.WF_set _ _ _ ih
  | query s now identifier category _ ih =>
    rw [getRateLimitRemaining_snd]; exact ih
  | clean s now _ ih => exact WF_sweep now s ih

/-- C1: for a declared category with policy (maxRequests = N, windowDuration =
D) and any identifier, starting from no window state for the key, a sequence
of checks whose later calls all occur before the first call's resetTime
(t1 + D) returns, at 0-indexed position i, `some true` exactly when i < N:
each of the first N calls is admitted and the (N+1)-th and every subsequent
in-window call is denied. -/
theorem claim1_limit_enforcement (store : Store) (identifier category : String)
    (p : RateLimitPolicy) (t1 : Nat) (ts : List Nat)
    (hp : RATE_LIMIT_CONFIG category = some p)
    (hfresh : store.get (rateLimitKey category identifier) = none)
    (hwin : ∀ t ∈ ts, t < t1 + p.windowMs) :
    (checkSeq store identifier category (t1 :: ts)).1 =
      (List.range (t1 :: ts).length).map
        (fun i => some (decide (i < p.maxRequests))) := by
  simpa using
    checkSeq_fresh_profile store identifier category p t1 ts hp hfresh hwin

/-- Witness for C1: 21 calls on a fresh "auth" key (N = 20) within one
window. -/
theorem claim1_limit_enforcement_witness :
    (checkSeq [] "1.2.3.4" "auth" (0 :: List.replicate 20 1)).1 =
      (List.range (0 :: List.replicate 20 1).length).map
        (fun i => some (decide (i < (20 : Nat)))) := by
  have h := claim1_limit_enforcement [] "1.2.3.4" "auth" ⟨20, 900000⟩ 0
    (List.replicate 20 1) (by decide) rfl (by decide)
  simpa using h

/-- C9: a scheduling interleaving of K concurrent checks is an arrival order
(each rateLimitCheck call runs to completion as an atomic unit in the
single-threaded runtime), so the property quantifies over every list of K
in-window call times on a fresh key: with K > maxRequests the number of
admissions is exactly maxRequests, never more. -/
theorem claim9_concurrent_admissions (store : Store)
    (identifier category : String) (p : RateLimitPolicy) (t1 : Nat)
    (ts : List Nat) (hp : RATE_LIMIT_CONFIG category = some p)
    (hfresh : store.get (rateLimitKey category identifier) = none)
    (hwin : ∀ t ∈ ts, t < t1 + p.windowMs)
    (hK : p.maxRequests < (t1 :: ts).length) :
    ((checkSeq store identifier category (t1 :: ts)).1.count (some true)) =
      p.maxRequests := by
  rw [checkSeq_fresh_profile store identifier category p t1 ts hp hfresh hwin,
    count_true_range_map]
  simp only [List.length_cons] at hK
  omega

/-- Witness for C9: 21 calls (K = 21 > 20) on a fresh "auth" key within one
window give exactly 20 admissions. -/
theorem claim9_concurrent_admissions_witness :
    ((checkSeq [] "1.2.3.4" "auth" (5 :: List.replicate 20 3)).1.count
      (some true)) = (20 : Nat) := by
  have h := claim9_concurrent_admissions [] "1.2.3.4" "auth" ⟨20, 900000⟩ 5
    (List.replicate 20 3) (by decide) rfl (by decide) (by decide)
  simpa using h

/-- C3: for a declared category, getRateLimitRemaining never changes the
store, returns maxRequests when the key has no entry or an expired one
(now > resetTime), and returns max(0, maxRequests - count) for an unexpired
entry; it performs no write, so it never counts as an admission attempt. -/
theorem claim3_remaining_quota (store : Store) (now : Nat)
    (identifier category : String) (p : RateLimitPolicy)
    (hp : RATE_LIMIT_CONFIG category = some p) :
    (getRateLimitRemaining store now identifier category).2 = store ∧
    (store.get (rateLimitKey category identifier) = none →
      (getRateLimitRemaining store now identifier category).1 =
        some (p.maxRequests : Int)) ∧
    (∀ e, store.get (rateLimitKey category identifier) = some e →
      now > e.resetTime →
      (getRateLimitRemaining store now identifier category).1 =
        some (p.maxRequests : Int)) ∧
    (∀ e, store.get (rateLimitKey category identifier) = some e →
      ¬ now > e.resetTime →
      (getRateLimitRemaining store now identifier category).1 =
        some (max 0 ((p.maxRequests : Int) - (e.count : Int)))) := by
  refine ⟨getRateLimitRemaining_snd store now identifier category,
    ?_, ?_, ?_⟩
  · intro hget
    simp [getRateLimitRemaining, hget, hp]
  · intro e hget he
    simp [getRateLimitRemaining, hget, hp, he]
  · intro e hget he
    simp [getRateLimitRemaining, hget, hp, he]

/-- Witness for C3 on an unexpired "auth" entry with count 5 (remaining 15),
also exercising the other conjuncts vacuously. -/
theorem claim3_remaining_quota_witness :
    (getRateLimitRemaining [("auth:1.2.3.4", ⟨5, 900000⟩)] 100 "1.2.3.4"
      "auth").2 = [("auth:1.2.3.4", ⟨5, 900000⟩)] ∧
    (Store.get [("auth:1.2.3.4", ⟨5, 900000⟩)]
        (rateLimitKey "auth" "1.2.3.4") = none →
      (getRateLimitRemaining [("auth:1.2.3.4", ⟨5, 900000⟩)] 100 "1.2.3.4"
        "auth").1 = some ((20 : Nat) : Int)) ∧
    (∀ e, Store.get [("auth:1.2.3.4", ⟨5, 900000⟩)]
        (rateLimitKey "auth" "1.2.3.4") = some e →
      100 > e.resetTime →
      (getRateLimitRemaining [("auth:1.2.3.4", ⟨5, 900000⟩)] 100 "1.2.3.4"
        "auth").1 = some ((20 : Nat) : Int)) ∧
    (∀ e, Store.get [("auth:1.2.3.4", ⟨5, 900000⟩)]
        (rateLimitKey "auth" "1.2.3.4") = some e →
      ¬ 100 > e.resetTime →
      (getRateLimitRemaining [("auth:1.2.3.4", ⟨5, 900000⟩)] 100 "1.2.3.4"
        "auth").1 = some (max 0 (((20 : Nat) : Int) - (e.count : Int)))) :=
  claim3_remaining_quota [("auth:1.2.3.4", ⟨5, 900000⟩)] 100 "1.2.3.4"
    "auth" ⟨20, 900000⟩ (by decide)

/-- C4 counterexample: at the boundary now = resetTime (so now ≥ resetAt
holds) the check does not take the reset path: the "default" entry
(count 1, resetTime 100) checked at now = 100 is incremented in place to
(count 2, resetTime 100) instead of being replaced by the reset entry
(count 1, now + windowDuration). -/
theorem claim4_counterexample :
    (100 : Nat) ≥ 100 ∧
    (rateLimitCheck [("default:1.2.3.4", ⟨1, 100⟩)] 100 "1.2.3.4"
      "default").store.get "default:1.2.3.4" = some ⟨2, 100⟩ ∧
    some (⟨2, 100⟩ : RateLimitEntry) ≠
      some ⟨1, 100 + 15 * 60 * 1000⟩ := by
  decide

/-- C4 (amended): the reset path is taken exactly when now is strictly past
resetTime (now > resetAt); at now ≤ resetAt — including the boundary
now = resetAt — the existing count is incremented in place and resetTime is
kept. -/
theorem claim4_amended_reset_strict (store : Store) (now : Nat)
    (identifier category : String) (p : RateLimitPolicy) (e : RateLimitEntry)
    (hp : RATE_LIMIT_CONFIG category = some p)
    (hget : store.get (rateLimitKey category identifier) = some e) :
    (now > e.resetTime →
      rateLimitCheck store now identifier category =
        ⟨some true, store.set (rateLimitKey category identifier)
          ⟨1, now + p.windowMs⟩⟩) ∧
    (now ≤ e.resetTime →
      (rateLimitCheck store now identifier category).store =
        store.set (rateLimitKey category identifier)
          ⟨e.count + 1, e.resetTime⟩) := by
  constructor
  · intro he
    exact rateLimitCheck_expired store now identifier category p e hp hget he
  · intro he
    rw [rateLimitCheck_inWindow store now identifier category p e hp hget
      (by omega)]

/-- Witness for C4 (amended) on a "booking" entry with resetTime 100 checked
at now = 200 (reset branch applies, increment branch is vacuous). -/
theorem claim4_amended_reset_strict_witness :
    ((200 : Nat) > 100 →
      rateLimitCheck [("booking:ip", ⟨3, 100⟩)] 200 "ip" "booking" =
        ⟨some true, Store.set [("booking:ip", ⟨3, 100⟩)]
          (rateLimitKey "booking" "ip") ⟨1, 200 + 900000⟩⟩) ∧
    ((200 : Nat) ≤ 100 →
      (rateLimitCheck [("booking:ip", ⟨3, 100⟩)] 200 "ip" "booking").store =
        Store.set [("booking:ip", ⟨3, 100⟩)] (rateLimitKey "booking" "ip")
          ⟨4, 100⟩) :=
  claim4_amended_reset_strict [("booking:ip", ⟨3, 100⟩)] 200 "ip" "booking"
    ⟨50, 900000⟩ ⟨3, 100⟩ (by decide) (by decide)

/-- C5: a check against an unexpired entry always stores count + 1, whatever
the outcome; the result is true exactly when the post-increment count stays
within maxRequests, so a rejected request still consumes a slot in the
counter. -/
theorem claim5_rejected_consumes_slot (store : Store) (now : Nat)
    (identifier category : String) (p : RateLimitPolicy) (e : RateLimitEntry)
    (hp : RATE_LIMIT_CONFIG category = some p)
    (hget : store.get (rateLimitKey category identifier) = some e)
    (he : ¬ now > e.resetTime) :
    (rateLimitCheck store now identifier category).store.get
        (rateLimitKey category identifier) =
      some ⟨e.count + 1, e.resetTime⟩ ∧
    (rateLimitCheck store now identifier category).result =
      some (decide (e.count + 1 ≤ p.maxRequests)) := by
  rw [rateLimitCheck_inWindow store now identifier category p e hp hget he]
  exact ⟨Store.get_set_self _ _ _, rfl⟩

/-- Witness for C5 at the limit: an "auth" entry with count 20 checked
in-window is denied (some false) yet its count is stored as 21. -/
theorem claim5_rejected_consumes_slot_witness :
    (rateLimitCheck [("auth:9.9.9.9", ⟨20, 500⟩)] 10 "9.9.9.9"
      "auth").store.get (rateLimitKey "auth" "9.9.9.9") =
        some ⟨21, 500⟩ ∧
    (rateLimitCheck [("auth:9.9.9.9", ⟨20, 500⟩)] 10 "9.9.9.9"
      "auth").result = some false :=
  claim5_rejected_consumes_slot [("auth:9.9.9.9", ⟨20, 500⟩)] 10 "9.9.9.9"
    "auth" ⟨20, 900000⟩ ⟨20, 500⟩ (by decide) (by decide) (by decide)

/-- C7: when the key has no entry, or only an expired one, the check admits
unconditionally: the result is true and the entry is replaced by
(1, now + windowDuration); the conclusion never consults maxRequests, so the
first request of a new window is admitted under any declared policy. -/
theorem claim7_new_window_always_admits (store : Store) (now : Nat)
    (identifier category : String) (p : RateLimitPolicy)
    (hp : RATE_LIMIT_CONFIG category = some p)
    (h : store.get (rateLimitKey category identifier) = none ∨
      ∃ e, store.get (rateLimitKey category identifier) = some e ∧
        now > e.resetTime) :
    rateLimitCheck store now identifier category =
      ⟨some true, store.set (rateLimitKey category identifier)
        ⟨1, now + p.windowMs⟩⟩ := by
  rcases h with hget | ⟨e, hget, he⟩
  · exact rateLimitCheck_fresh store now identifier category p hp hget
  · exact rateLimitCheck_expired store now identifier category p e hp hget he

/-- Witness for C7 on an expired "default" entry (resetTime 10, checked at
now = 50). -/
theorem claim7_new_window_always_admits_witness :
    rateLimitCheck [("default:a", ⟨7, 10⟩)] 50 "a" "default" =
      ⟨some true, Store.set [("default:a", ⟨7, 10⟩)]
        (rateLimitKey "default" "a") ⟨1, 50 + 900000⟩⟩ :=
  claim7_new_window_always_admits [("default:a", ⟨7, 10⟩)] 50 "a" "default"
    ⟨100, 900000⟩ (by decide) (Or.inr ⟨⟨7, 10⟩, by decide, by decide⟩)

/-- C2 counterexample: the category "auth:x" is absent from RATE_LIMIT_CONFIG
and the call does signal the error (result none), but the store is NOT left
unchanged: starting from the reachable store produced by an "auth" check with
identifier "x:y", a check with the undeclared category "auth:x" and
identifier "y" forms the same composite key "auth:x:y", and that entry's
count is incremented from 1 to 2 before the TypeError is raised. -/
theorem claim2_no_mutation_counterexample :
    RATE_LIMIT_CONFIG "auth:x" = none ∧
    (rateLimitCheck [] 0 "x:y" "auth").store =
      [("auth:x:y", ⟨1, 900000⟩)] ∧
    (rateLimitCheck [("auth:x:y", ⟨1, 900000⟩)] 50 "y" "auth:x").result =
      none ∧
    (rateLimitCheck [("auth:x:y", ⟨1, 900000⟩)] 50 "y" "auth:x").store ≠
      [("auth:x:y", ⟨1, 900000⟩)] := by
  decide

/-- C2 (amended): for a category string that is neither declared nor a
property name inherited from Object.prototype, the check signals the
TypeError (result none, never an allow/deny boolean); the store is left
unchanged whenever the composite key holds no unexpired entry — in
particular whenever the key is absent, so for every store reachable without
colon-collisions — but an unexpired entry under the colliding composite key
is incremented before the error is raised.  Undeclared categories that do
name Object.prototype members (e.g. "toString") escape the error entirely —
the inherited member's windowMs is undefined, so the call admits and writes
resetTime NaN — which is why the hypothesis excludes
`OBJECT_PROTOTYPE_PROPS`: outside that list the lookup truly yields
undefined and the embedding's throwing branch is exact. -/
theorem claim2_amended_config_error (store : Store) (now : Nat)
    (identifier category : String)
    (hp : RATE_LIMIT_CONFIG category = none)
    (hproto : category ∉ OBJECT_PROTOTYPE_PROPS) :
    (rateLimitCheck store now identifier category).result = none ∧
    ((∀ e, store.get (rateLimitKey category identifier) = some e →
        now > e.resetTime) →
      (rateLimitCheck store now identifier category).store = store) ∧
    (∀ e, store.get (rateLimitKey category identifier) = some e →
      ¬ now > e.resetTime →
      (rateLimitCheck store now identifier category).store =
        store.set (rateLimitKey category identifier)
          ⟨e.count + 1, e.resetTime⟩) := by
  refine ⟨?_, ?_, ?_⟩
  · cases hget : store.get (rateLimitKey category identifier) with
    | none =>
      rw [rateLimitCheck_noPolicy_fresh store now identifier category hp hget]
    | some e =>
      by_cases he : now > e.resetTime
      · rw [rateLimitCheck_noPolicy_expired store now identifier category e
          hp hget he]
      · rw [rateLimitCheck_noPolicy_inWindow store now identifier category e
          hp hget he]
  · intro hall
    cases hget : store.get (rateLimitKey category identifier) with
    | none =>
      rw [rateLimitCheck_noPolicy_fresh store now identifier category hp hget]
    | some e =>
      rw [rateLimitCheck_noPolicy_expired store now identifier category e hp
        hget (hall e hget)]
  · intro e hget he
    rw [rateLimitCheck_noPolicy_inWindow store now identifier category e hp
      hget he]

/-- Witness for C2 (amended): the category "nope" — neither declared nor an
Object.prototype property name — on the empty store signals the error and
leaves the store empty. -/
theorem claim2_amended_config_error_witness :
    (rateLimitCheck [] 0 "x" "nope").result = none ∧
    ((∀ e, Store.get [] (rateLimitKey "nope" "x") = some e →
        0 > e.resetTime) →
      (rateLimitCheck [] 0 "x" "nope").store = []) ∧
    (∀ e, Store.get [] (rateLimitKey "nope" "x") = some e →
      ¬ 0 > e.resetTime →
      (rateLimitCheck [] 0 "x" "nope").store =
        Store.set [] (rateLimitKey "nope" "x")
          ⟨e.count + 1, e.resetTime⟩) :=
  claim2_amended_config_error [] 0 "x" "nope" (by decide) (by decide)

/-- C6: for two pairs (category, identifier) with both categories declared in
RATE_LIMIT_CONFIG, if the pairs differ then their composite keys differ (the
three declared category names are colon-free, so composition is injective on
them), and a check on the first pair leaves the second pair's window state
unchanged. -/
theorem claim6_independent_counters (store : Store) (now : Nat)
    (c₁ id₁ c₂ id₂ : String)
    (h₁ : (RATE_LIMIT_CONFIG c₁).isSome)
    (h₂ : (RATE_LIMIT_CONFIG c₂).isSome)
    (hne : (c₁, id₁) ≠ (c₂, id₂)) :
    rateLimitKey c₁ id₁ ≠ rateLimitKey c₂ id₂ ∧
    (rateLimitCheck store now id₁ c₁).store.get (rateLimitKey c₂ id₂) =
      store.get (rateLimitKey c₂ id₂) := by
  have hkey : rateLimitKey c₁ id₁ ≠ rateLimitKey c₂ id₂ := by
    intro h
    obtain ⟨hc, hid⟩ := rateLimitKey_inj c₁ c₂ id₁ id₂ h₁ h₂ h
    exact hne (by rw [hc, hid])
  exact ⟨hkey, rateLimitCheck_frame store now id₁ c₁ _ (Ne.symm hkey)⟩

/-- Witness for C6: an "auth" check does not touch the "booking" entry of the
same identifier. -/
theorem claim6_independent_counters_witness :
    rateLimitKey "auth" "1.2.3.4" ≠ rateLimitKey "booking" "1.2.3.4" ∧
    (rateLimitCheck [("booking:1.2.3.4", ⟨2, 900000⟩)] 0 "1.2.3.4"
      "auth").store.get (rateLimitKey "booking" "1.2.3.4") =
      Store.get [("booking:1.2.3.4", ⟨2, 900000⟩)]
        (rateLimitKey "booking" "1.2.3.4") :=
  claim6_independent_counters [("booking:1.2.3.4", ⟨2, 900000⟩)] 0
    "auth" "1.2.3.4" "booking" "1.2.3.4" (by decide) (by decide) (by decide)

/-- C8: a single sweep pass at time t deletes exactly the entries whose
resetTime has passed (t > resetTime) and returns every other entry unchanged;
a second sweep at the same time is a no-op (idempotence). -/
theorem claim8_sweep_exact_idempotent (t : Nat) (s : Store) (hs : s.WF) :
    (∀ k, (sweep t s).get k =
      match s.get k with
      | none => none
      | some e => if t > e.resetTime then none else some e) ∧
    sweep t (sweep t s) = sweep t s :=
  ⟨fun k => sweep_get t s hs k, sweep_idem t s⟩

/-- Witness for C8 on a two-entry store at t = 50: the expired entry
(resetTime 10) is deleted, the live one (resetTime 100) is kept, and a second
sweep changes nothing. -/
theorem claim8_sweep_exact_idempotent_witness :
    (sweep 50 [("auth:a", ⟨1, 10⟩), ("booking:b", ⟨2, 100⟩)]).get
      "auth:a" = none ∧
    (sweep 50 [("auth:a", ⟨1, 10⟩), ("booking:b", ⟨2, 100⟩)]).get
      "booking:b" = some ⟨2, 100⟩ ∧
    sweep 50 (sweep 50 [("auth:a", ⟨1, 10⟩), ("booking:b", ⟨2, 100⟩)]) =
      sweep 50 [("auth:a", ⟨1, 10⟩), ("booking:b", ⟨2, 100⟩)] := by
  have h := claim8_sweep_exact_idempotent 50
    [("auth:a", ⟨1, 10⟩), ("booking:b", ⟨2, 100⟩)]
    (by unfold Store.WF; decide)
  refine ⟨?_, ?_, h.2⟩
  · have h1 := h.1 "auth:a"
    simpa using h1
  · have h2 := h.1 "booking:b"
    simpa using h2

/-- Auxiliary invariant for C10, over raw store membership: every binding in
a reachable store has count ≥ 1. -/
theorem count_positive_invariant (s : Store) (hs : Reachable s) :
    ∀ q ∈ s, 1 ≤ (q.2).count := by
  induction hs with
  | init => intro q hq; simp at hq
  | check s now identifier category _ ih =>
    intro q hq
    cases hp : RATE_LIMIT_CONFIG category with
    | none =>
      cases hget : s.get (rateLimitKey category identifier) with
      | none =>
        rw [rateLimitCheck_noPolicy_fresh s now identifier category hp
          hget] at hq
        exact ih q hq
      | some e =>
        by_cases he : now > e.resetTime
        · rw [rateLimitCheck_noPolicy_expired s now identifier category e hp
            hget he] at hq
          exact ih q hq
        · rw [rateLimitCheck_noPolicy_inWindow s now identifier category e hp
            hget he] at hq
          rcases Store.mem_set _ _ _ _ hq with h | h
          · subst h; exact Nat.succ_le_succ (Nat.zero_le _)
          · exact ih q h
    | some p =>
      cases hget : s.get (rateLimitKey category identifier) with
      | none =>
        rw [rateLimitCheck_fresh s now identifier category p hp hget] at hq
        rcases Store.mem_set _ _ _ _ hq with h | h
        · subst h; exact le_refl 1
        · exact ih q h
      | some e =>
        by_cases he : now > e.resetTime
        · rw [rateLimitCheck_expired s now identifier category p e hp hget
            he] at hq
          rcases Store.mem_set _ _ _ _ hq with h | h
          · subst h; exact le_refl 1
          · exact ih q h
        · rw [rateLimitCheck_inWindow s now identifier category p e hp hget
            he] at hq
          rcases Store.mem_set _ _ _ _ hq with h | h
          · subst h; exact Nat.succ_le_succ (Nat.zero_le _)
          · exact ih q h
  | query s now identifier category _ ih =>
    intro q hq
    rw [getRateLimitRemaining_snd] at hq
    exact ih q hq
  | clean s now _ ih =>
    intro q hq
    exact ih q (mem_sweep now s q hq)

/-- C10: in every store reachable by any sequence of rateLimitCheck,
getRateLimitRemaining and sweep operations, every entry has count ≥ 1:
entries are created with count 1, in-window checks only increment, and the
sweep only deletes. -/
theorem claim10_count_positive (s : Store) (hs : Reachable s) (k : String)
    (e : RateLimitEntry) (hget : s.get k = some e) : 1 ≤ e.count :=
  count_positive_invariant s hs (k, e) (Store.get_mem s k e hget)

/-- Witness for C10 on the reachable store produced by one "default" check
from the empty store. -/
theorem claim10_count_positive_witness :
    Store.get (rateLimitCheck [] 0 "1.2.3.4" "default").store
        (rateLimitKey "default" "1.2.3.4") = some ⟨1, 900000⟩ ∧
    1 ≤ (RateLimitEntry.mk 1 900000).count :=
  ⟨by decide,
    claim10_count_positive (rateLimitCheck [] 0 "1.2.3.4" "default").store
      (Reachable.check [] 0 "1.2.3.4" "default" Reachable.init)
      (rateLimitKey "default" "1.2.3.4") ⟨1, 900000⟩ (by decide)⟩
